import Mathlib

/-!
Verification of the perimeter-propagation core of the PWWB wildfire
digital twin (backend/simulation.py, backend/main.py).

The Python code works on numpy float arrays; we embed its arithmetic over
the real numbers, keeping the exact expressions of the source
(`np.linalg.norm` becomes `norm2`, the `1e-10` degeneracy guards are kept
verbatim, `np.radians` becomes `radians`).  Lists of `[lon, lat]` pairs
become `List Point` with `Point = ℝ × ℝ`.  The weather dictionary
`hrrr_data` (absent before a successful fetch) becomes
`Option (List WeatherStep)`; Python truthiness of
`self.config.initial_polygon` (falsy for both `None` and `[]`) becomes
`polyTruthy`.
-/

namespace PWWB

/-- A `[lon, lat]` coordinate pair. -/
abbrev Point : Type := ℝ × ℝ

/-- A polygon ring: a list of coordinate pairs (the code appends the first
point at the end to close it). -/
abbrev Ring : Type := List Point

/-- One entry of `hrrr_data`: the weather sample at one simulation step
(simulation.py lines 83-89; the timestamp is index-aligned and carries no
information used by the propagation, so it is not modelled). -/
structure WeatherStep where
  wind_speed : ℝ
  wind_direction : ℝ
  temperature : ℝ
  humidity : ℝ

/-- The part of `SimulationConfig` the propagator reads
(simulation.py lines 13-20): `start_location` and `initial_polygon`
(`none` models Python `None`). -/
structure Config where
  start_location : Point
  initial_polygon : Option (List Point)

/-- `np.radians` (simulation.py line 146). -/
noncomputable def radians (deg : ℝ) : ℝ := deg * (Real.pi / 180)

/-- `np.linalg.norm` of a 2-vector. -/
noncomputable def norm2 (v : ℝ × ℝ) : ℝ := Real.sqrt (v.1 ^ 2 + v.2 ^ 2)

/-- `v / np.linalg.norm(v)`. -/
noncomputable def normalized (v : ℝ × ℝ) : ℝ × ℝ := (v.1 / norm2 v, v.2 / norm2 v)

/-- Lines 172-182: normalize a vector, leaving the zero vector when its
length is at most `1e-10`. -/
noncomputable def safe_normalize (v : ℝ × ℝ) : ℝ × ℝ :=
  if norm2 v > 1e-10 then normalized v else (0, 0)

/-- Line 185: the raw normal estimate
`[-v1_norm[1] + -v2_norm[1], v1_norm[0] + v2_norm[0]]`. -/
def raw_normal (v1n v2n : ℝ × ℝ) : ℝ × ℝ := (-v1n.2 + -v2n.2, v1n.1 + v2n.1)

/-- Lines 184-192: the averaged perpendicular ("normal") direction, falling
back to the wind vector when it degenerates. -/
noncomputable def normal_dir (v1n v2n wind : ℝ × ℝ) : ℝ × ℝ :=
  if norm2 (raw_normal v1n v2n) > 1e-10 then normalized (raw_normal v1n v2n) else wind

/-- Line 197: `spread_dir = normal * 0.5 + wind_vector * 0.5`, before its
normalization. -/
def blend (normal wind : ℝ × ℝ) : ℝ × ℝ :=
  (normal.1 * 0.5 + wind.1 * 0.5, normal.2 * 0.5 + wind.2 * 0.5)

/-- Lines 194-203: blend the normal with the wind vector and normalize,
falling back to the wind vector when the blend degenerates. -/
noncomputable def spread_dir (normal wind : ℝ × ℝ) : ℝ × ℝ :=
  if norm2 (blend normal wind) > 1e-10 then normalized (blend normal wind) else wind

/-- Line 152: `base_spread = 0.002 * (1 + wind_speed/5) * (1 + (30-humidity)/50)`. -/
noncomputable def base_spread (wind_speed humidity : ℝ) : ℝ :=
  0.002 * (1 + wind_speed / 5) * (1 + (30 - humidity) / 50)

/-- The pre-clamp spread distance `base_spread * (1 + wind_speed * 0.2)`
(inside the `min` of line 206). -/
noncomputable def pre_clamp_distance (wind_speed humidity : ℝ) : ℝ :=
  base_spread wind_speed humidity * (1 + wind_speed * 0.2)

/-- Line 206: `spread_distance = min(base_spread * (1 + wind_speed*0.2), 0.1)`. -/
noncomputable def spread_distance (wind_speed humidity : ℝ) : ℝ :=
  min (pre_clamp_distance wind_speed humidity) 0.1

/-- Lines 163-211, the body of the per-vertex loop: advance one vertex of
the perimeter.  `wind_dir` is already in radians (line 146). -/
noncomputable def advanceVertex (wind_dir wind_speed humidity : ℝ)
    (prev_point point next_point : Point) : Point :=
  let v1 : ℝ × ℝ := (next_point.1 - point.1, next_point.2 - point.2)
  let v2 : ℝ × ℝ := (point.1 - prev_point.1, point.2 - prev_point.2)
  let wind : ℝ × ℝ := (Real.cos wind_dir, Real.sin wind_dir)
  let dir := spread_dir (normal_dir (safe_normalize v1) (safe_normalize v2) wind) wind
  let d := spread_distance wind_speed humidity
  (point.1 + dir.1 * d, point.2 + dir.2 * d)

/-- Lines 161-211: advance every vertex of `prev_coords` independently;
`next = prev_coords[(j+1) % n]`, `prev = prev_coords[(j-1) % n]`
(Python's nonnegative `%`, so `(j-1) % n = (j+n-1) % n`). -/
noncomputable def advanceRing (w : WeatherStep) (prev_coords : List Point) : List Point :=
  (List.range prev_coords.length).map fun j =>
    advanceVertex (radians w.wind_direction) w.wind_speed w.humidity
      (prev_coords.getD ((j + prev_coords.length - 1) % prev_coords.length) (0, 0))
      (prev_coords.getD j (0, 0))
      (prev_coords.getD ((j + 1) % prev_coords.length) (0, 0))

/-- Lines 156 and 214: `perimeter + [perimeter[0]]` / `perimeter.append(perimeter[0])`.
(On the empty list — unreachable in the propagator — Python would raise;
we return `[]`.) -/
def closeRing : List Point → List Point
  | [] => []
  | p :: rest => (p :: rest) ++ [p]

/-- Python truthiness of `self.config.initial_polygon` (lines 140, 154):
falsy when `None` or the empty list. -/
def polyTruthy : Option (List Point) → Bool
  | none => false
  | some l => !l.isEmpty

/-- Lines 138-142: the initial coordinates — the supplied polygon when
truthy, otherwise the single start point. -/
def initialCoords (cfg : Config) : List Point :=
  if polyTruthy cfg.initial_polygon then cfg.initial_polygon.getD []
  else [(cfg.start_location.1, cfg.start_location.2)]

/-- Lines 154-214, one iteration of the step loop.  `prev` is
`spread_data[i-1]` (the ring emitted at the previous step), present exactly
when `i > 0`; line 160 takes its coordinates without the closing duplicate
(`[:-1]`, i.e. `dropLast`) when `i > 0` and `initial_coords` otherwise. -/
noncomputable def stepRing (cfg : Config) (i : Nat) (prev : Option Ring)
    (w : WeatherStep) : Ring :=
  if i = 0 ∧ polyTruthy cfg.initial_polygon = true then
    closeRing (initialCoords cfg)
  else
    let prev_coords := if 0 < i then (prev.getD []).dropLast else initialCoords cfg
    closeRing (advanceRing w prev_coords)

/-- Lines 144-219: the step loop, carrying the index and the previously
emitted ring (`spread_data[i-1]`). -/
noncomputable def fireSpreadAux (cfg : Config) :
    Nat → Option Ring → List WeatherStep → List Ring
  | _, _, [] => []
  | i, prev, w :: ws =>
    let ring := stepRing cfg i prev w
    ring :: fireSpreadAux cfg (i + 1) (some ring) ws

/-- Lines 128-221, `calculate_fire_spread`: the empty list when no weather
data was acquired (`if not self.hrrr_data: return []`), otherwise one ring
per weather step.  Each output dictionary's payload is its ring
(`'coordinates': [perimeter]`); the timestamp string is index-aligned and
not modelled. -/
noncomputable def calculate_fire_spread (cfg : Config)
    (hrrr_data : Option (List WeatherStep)) : List Ring :=
  match hrrr_data with
  | none => []
  | some ws => fireSpreadAux cfg 0 none ws

/-- One record of `run_simulation`'s output (lines 231-251): the fire
perimeter ring and the smoke-plume ring of one step (the timestamp is
index-aligned and not modelled). -/
structure SimRecord where
  firePerimeter : Ring
  smokePlume : Ring

/-- Lines 223-253, `run_simulation`, with `fetch_hrrr_data`'s outcome made
explicit: an exception aborts the run (propagated to the caller, where
main.py lines 55-56 turn it into a single HTTP 500 error); on success the
filler `hysplit_data` (lines 121-126: one copy of the initial polygon per
weather step) and the fire spread are zipped index-by-index into one record
per weather step. -/
noncomputable def run_simulation (cfg : Config)
    (fetch : Except String (List WeatherStep)) : Except String (List SimRecord) :=
  match fetch with
  | .error e => .error e
  | .ok hrrr =>
    let hysplit_data := hrrr.map fun _ => cfg.initial_polygon.getD []
    let fire_spread := calculate_fire_spread cfg (some hrrr)
    .ok ((List.range hrrr.length).map fun i =>
      { firePerimeter := fire_spread.getD i [], smokePlume := hysplit_data.getD i [] })

/-- A concrete fetch-failure message, used when exercising the error path
of `run_simulation` on an explicit input. -/
def fetchError : String := "weather fetch failed"

/-- The unit-square scenario ring of the spec, §8:
`[(0,0),(0,1),(1,1),(1,0)]`. -/
def demoPoly : List Point :=
  [((0:ℝ), (0:ℝ)), ((0:ℝ), (1:ℝ)), ((1:ℝ), (1:ℝ)), ((1:ℝ), (0:ℝ))]

/-- The scenario weather sample: wind 10 m/s from bearing 90°, 20 °C,
humidity 30 %. -/
def demoWeather : WeatherStep := ⟨10, 90, 20, 30⟩

/-- The scenario configuration: start at the origin, initial polygon
`demoPoly`. -/
def demoCfg : Config := ⟨((0:ℝ), (0:ℝ)), some demoPoly⟩

/-- The scenario run: the initial pass-through frame plus one advanced
frame under `demoWeather`. -/
noncomputable def demoRun : List Ring :=
  calculate_fire_spread demoCfg (some [demoWeather, demoWeather])

/-! ### Basic facts about `norm2` and the direction computations -/

lemma norm2_nonneg (v : ℝ × ℝ) : 0 ≤ norm2 v := Real.sqrt_nonneg _

lemma norm2_sq (v : ℝ × ℝ) : norm2 v ^ 2 = v.1 ^ 2 + v.2 ^ 2 :=
  Real.sq_sqrt (by positivity)

lemma norm2_zero : norm2 (0, 0) = 0 := by
  simp [norm2]

/-- Normalizing a vector of positive length yields a unit vector. -/
lemma norm2_normalized (v : ℝ × ℝ) (h : 0 < norm2 v) :
    norm2 (normalized v) = 1 := by
  have hne : norm2 v ≠ 0 := ne_of_gt h
  have key : (v.1 / norm2 v) ^ 2 + (v.2 / norm2 v) ^ 2 = 1 := by
    field_simp
    linarith [norm2_sq v]
  calc norm2 (normalized v)
      = Real.sqrt ((v.1 / norm2 v) ^ 2 + (v.2 / norm2 v) ^ 2) := rfl
    _ = Real.sqrt 1 := by rw [key]
    _ = 1 := Real.sqrt_one

/-- The wind vector `(cos θ, sin θ)` is a unit vector. -/
lemma norm2_wind (θ : ℝ) : norm2 (Real.cos θ, Real.sin θ) = 1 := by
  unfold norm2
  rw [Real.cos_sq_add_sin_sq, Real.sqrt_one]

/-- Whatever branch is taken, the blended spread direction is a unit vector
as soon as the wind vector is one. -/
lemma norm2_spread_dir (normal wind : ℝ × ℝ) (hw : norm2 wind = 1) :
    norm2 (spread_dir normal wind) = 1 := by
  unfold spread_dir
  split_ifs with h
  · exact norm2_normalized _ (lt_trans (by norm_num) h)
  · exact hw

/-- Scaling a vector scales its length by the absolute factor. -/
lemma norm2_smul (a b d : ℝ) : norm2 (a * d, b * d) = norm2 (a, b) * |d| := by
  unfold norm2
  have : (a * d) ^ 2 + (b * d) ^ 2 = (a ^ 2 + b ^ 2) * d ^ 2 := by ring
  rw [this, Real.sqrt_mul (by positivity), Real.sqrt_sq_eq_abs]

/-- The displacement of one vertex-advance has magnitude exactly
`|spread_distance|`: the chosen direction is always a unit vector. -/
lemma advanceVertex_displacement (wind_dir wind_speed humidity : ℝ)
    (pp p np : Point) :
    norm2 ((advanceVertex wind_dir wind_speed humidity pp p np).1 - p.1,
           (advanceVertex wind_dir wind_speed humidity pp p np).2 - p.2)
      = |spread_distance wind_speed humidity| := by
  simp only [advanceVertex, add_sub_cancel_left]
  rw [norm2_smul, Prod.mk.eta, norm2_spread_dir _ _ (norm2_wind wind_dir), one_mul]

/-! ### The spread distance -/

/-- For wind speed `≥ 0` and humidity `≤ 80` every factor of the pre-clamp
distance is nonnegative. -/
lemma pre_clamp_nonneg (s h : ℝ) (hs : 0 ≤ s) (hh : h ≤ 80) :
    0 ≤ pre_clamp_distance s h := by
  unfold pre_clamp_distance base_spread
  have h1 : (0:ℝ) ≤ 1 + s / 5 := by linarith
  have h2 : (0:ℝ) ≤ 1 + (30 - h) / 50 := by linarith
  have h3 : (0:ℝ) ≤ 1 + s * 0.2 := by linarith
  exact mul_nonneg (mul_nonneg (mul_nonneg (by norm_num) h1) h2) h3

lemma spread_distance_abs_le (s h : ℝ) (hs : 0 ≤ s) (hh : h ≤ 80) :
    |spread_distance s h| ≤ 0.1 := by
  unfold spread_distance
  rw [abs_of_nonneg (le_min (pre_clamp_nonneg s h hs hh) (by norm_num))]
  exact min_le_right _ _

/-! ### The fully degenerate vertex -/

lemma safe_normalize_zero : safe_normalize ((0:ℝ), (0:ℝ)) = (0, 0) := by
  unfold safe_normalize
  rw [norm2_zero, if_neg (by norm_num)]

lemma raw_normal_zero : raw_normal ((0:ℝ), (0:ℝ)) ((0:ℝ), (0:ℝ)) = (0, 0) := by
  unfold raw_normal
  norm_num

lemma normal_dir_zero (wind : ℝ × ℝ) :
    normal_dir ((0:ℝ), (0:ℝ)) ((0:ℝ), (0:ℝ)) wind = wind := by
  unfold normal_dir
  rw [raw_normal_zero, norm2_zero, if_neg (by norm_num)]

lemma blend_self (w : ℝ × ℝ) : blend w w = w := by
  unfold blend
  have h1 : w.1 * 0.5 + w.1 * 0.5 = w.1 := by ring
  have h2 : w.2 * 0.5 + w.2 * 0.5 = w.2 := by ring
  rw [h1, h2]

lemma normalized_of_norm_one (w : ℝ × ℝ) (hw : norm2 w = 1) : normalized w = w := by
  unfold normalized
  rw [hw, div_one, div_one]

lemma spread_dir_self (w : ℝ × ℝ) (hw : norm2 w = 1) : spread_dir w w = w := by
  unfold spread_dir
  rw [blend_self, hw, if_pos (by norm_num : (1:ℝ) > 1e-10), normalized_of_norm_one w hw]

/-- On a vertex whose neighbors coincide with it, every geometric branch
degenerates and the rule moves the vertex along the unit wind vector. -/
lemma advanceVertex_self (wind_dir wind_speed humidity : ℝ) (p : Point) :
    advanceVertex wind_dir wind_speed humidity p p p =
      (p.1 + Real.cos wind_dir * spread_distance wind_speed humidity,
       p.2 + Real.sin wind_dir * spread_distance wind_speed humidity) := by
  simp only [advanceVertex, sub_self]
  rw [safe_normalize_zero, normal_dir_zero, spread_dir_self _ (norm2_wind wind_dir)]

lemma spread_distance_100_100 : spread_distance 100 100 = -0.3528 := by
  unfold spread_distance pre_clamp_distance base_spread
  norm_num [min_def]

/-- Claim C1, counterexample: at wind speed 100 m/s and humidity 100 % (both
inside the claimed ranges) the humidity factor `1 + (30-100)/50 = -0.4` makes
the spread distance `-0.3528`; the `min(..., 0.1)` clamp does not bound it
from below, so the fully degenerate vertex `(0,0)` is displaced by
`0.3528 > 0.1`. -/
theorem C1_counterexample :
    0 ≤ (100:ℝ) ∧ 0 ≤ (100:ℝ) ∧ (100:ℝ) ≤ 100 ∧
    ¬ (norm2 ((advanceVertex 0 100 100 (0, 0) ((0:ℝ), (0:ℝ)) (0, 0)).1 - ((0:ℝ), (0:ℝ)).1,
              (advanceVertex 0 100 100 (0, 0) ((0:ℝ), (0:ℝ)) (0, 0)).2 - ((0:ℝ), (0:ℝ)).2)
        ≤ 0.1) := by
  refine ⟨by norm_num, by norm_num, le_refl _, ?_⟩
  rw [advanceVertex_displacement, spread_distance_100_100, not_le,
    abs_of_neg (by norm_num : (-0.3528:ℝ) < 0)]
  norm_num

/-- Claim C1, amended: for wind speed `≥ 0` and humidity in `[0, 80]` (so
that the pre-clamp distance is nonnegative), the Euclidean magnitude of the
displacement of every vertex advanced by the vertex-advance rule is at most
the hard clamp `0.1`. -/
theorem C1_displacement_le_clamp (wind_dir wind_speed humidity : ℝ)
    (pp p np : Point)
    (hs : 0 ≤ wind_speed) (hh0 : 0 ≤ humidity) (hh : humidity ≤ 80) :
    norm2 ((advanceVertex wind_dir wind_speed humidity pp p np).1 - p.1,
           (advanceVertex wind_dir wind_speed humidity pp p np).2 - p.2) ≤ 0.1 := by
  rw [advanceVertex_displacement]
  exact spread_distance_abs_le _ _ hs hh

/-- Claim C1, witness: the amended bound applied at wind direction 90°,
speed 10 m/s, humidity 30 %, and the vertex `(0,1)` of the unit square. -/
theorem C1_displacement_le_clamp_witness :
    0 ≤ (10:ℝ) ∧ 0 ≤ (30:ℝ) ∧ (30:ℝ) ≤ 80 ∧
    norm2 ((advanceVertex (radians 90) 10 30 (0, 0) ((0:ℝ), (1:ℝ)) (1, 1)).1
             - ((0:ℝ), (1:ℝ)).1,
           (advanceVertex (radians 90) 10 30 (0, 0) ((0:ℝ), (1:ℝ)) (1, 1)).2
             - ((0:ℝ), (1:ℝ)).2) ≤ 0.1 :=
  ⟨by norm_num, by norm_num, by norm_num,
    C1_displacement_le_clamp (radians 90) 10 30 (0, 0) ((0:ℝ), (1:ℝ)) (1, 1)
      (by norm_num) (by norm_num) (by norm_num)⟩

/-- Claim C7: on a ring with exactly one distinct vertex both edge vectors
are zero, the normal estimate degenerates, and the rule is total: the
advanced ring is defined and the vertex moves exactly along the unit wind
vector `(cos θ, sin θ)` scaled by the spread distance. -/
theorem C7_degenerate_vertex_wind_fallback (w : WeatherStep) (p : Point) :
    advanceRing w [p] =
      [(p.1 + Real.cos (radians w.wind_direction) * spread_distance w.wind_speed w.humidity,
        p.2 + Real.sin (radians w.wind_direction) * spread_distance w.wind_speed w.humidity)] := by
  unfold advanceRing
  rw [show List.range ([p] : List Point).length = [0] from rfl, List.map_cons, List.map_nil]
  norm_num
  rw [advanceVertex_self]

/-! ### Ring shape invariants of the propagator -/

lemma closeRing_length (l : List Point) (h : l ≠ []) :
    (closeRing l).length = l.length + 1 := by
  cases l with
  | nil => cases h rfl
  | cons a t => simp [closeRing]

lemma closeRing_dropLast (l : List Point) : (closeRing l).dropLast = l := by
  cases l with
  | nil => rfl
  | cons a t => exact List.dropLast_concat

lemma closeRing_head_eq_last (l : List Point) (h : l ≠ []) :
    (closeRing l).head? = (closeRing l).getLast? := by
  cases l with
  | nil => cases h rfl
  | cons a t =>
    show (((a :: t) ++ [a]) : List Point).head? = ((a :: t) ++ [a]).getLast?
    rw [List.getLast?_concat, List.cons_append, List.head?_cons]

lemma closeRing_eq_append (l : List Point) (h : l ≠ []) :
    closeRing l = l ++ l.take 1 := by
  cases l with
  | nil => cases h rfl
  | cons a t => simp [closeRing]

lemma advanceRing_length (w : WeatherStep) (l : List Point) :
    (advanceRing w l).length = l.length := by
  simp [advanceRing]

lemma advanceRing_ne_nil (w : WeatherStep) (l : List Point) (h : l ≠ []) :
    advanceRing w l ≠ [] := by
  rw [← List.length_pos_iff_ne_nil, advanceRing_length]
  exact List.length_pos_iff_ne_nil.mpr h

lemma initialCoords_ne_nil (cfg : Config) : initialCoords cfg ≠ [] := by
  unfold initialCoords
  split_ifs with h
  · cases hp : cfg.initial_polygon with
    | none => rw [hp] at h; exact absurd h (by decide)
    | some l =>
      cases l with
      | nil => rw [hp] at h; exact absurd h (by decide)
      | cons a t => simp
  · simp

lemma fireSpreadAux_length (cfg : Config) :
    ∀ (ws : List WeatherStep) (i : Nat) (prev : Option Ring),
      (fireSpreadAux cfg i prev ws).length = ws.length := by
  intro ws
  induction ws with
  | nil => intro i prev; rfl
  | cons w ws ih => intro i prev; simp only [fireSpreadAux, List.length_cons, ih]

lemma calculate_fire_spread_length (cfg : Config) (ws : List WeatherStep) :
    (calculate_fire_spread cfg (some ws)).length = ws.length :=
  fireSpreadAux_length cfg ws 0 none

/-- Every ring emitted at one step is the closure of a nonempty vertex list
whose length is that of the initial coordinates, provided the previous ring
(if any) is. -/
lemma stepRing_shape (cfg : Config) (i : Nat) (prev : Option Ring) (w : WeatherStep)
    (h1 : prev = none → i = 0)
    (h2 : ∀ r, prev = some r →
      ∃ l, l ≠ [] ∧ l.length = (initialCoords cfg).length ∧ r = closeRing l) :
    ∃ l, l ≠ [] ∧ l.length = (initialCoords cfg).length ∧
      stepRing cfg i prev w = closeRing l := by
  unfold stepRing
  split_ifs with hc hi
  · exact ⟨initialCoords cfg, initialCoords_ne_nil cfg, rfl, rfl⟩
  · cases hp : prev with
    | none => exact absurd (h1 hp) (Nat.pos_iff_ne_zero.mp hi)
    | some r =>
      obtain ⟨l, hl, hlen, hr⟩ := h2 r hp
      refine ⟨advanceRing w l, advanceRing_ne_nil w l hl, ?_, ?_⟩
      · rw [advanceRing_length]; exact hlen
      · simp only [Option.getD_some, hr, closeRing_dropLast]
  · refine ⟨advanceRing w (initialCoords cfg),
      advanceRing_ne_nil w _ (initialCoords_ne_nil cfg), ?_, rfl⟩
    rw [advanceRing_length]

lemma fireSpreadAux_shape (cfg : Config) :
    ∀ (ws : List WeatherStep) (i : Nat) (prev : Option Ring),
      (prev = none → i = 0) →
      (∀ r, prev = some r →
        ∃ l, l ≠ [] ∧ l.length = (initialCoords cfg).length ∧ r = closeRing l) →
      ∀ ring ∈ fireSpreadAux cfg i prev ws,
        ∃ l, l ≠ [] ∧ l.length = (initialCoords cfg).length ∧ ring = closeRing l := by
  intro ws
  induction ws with
  | nil => intro i prev _ _ ring hr; simp [fireSpreadAux] at hr
  | cons w ws ih =>
    intro i prev h1 h2 ring hr
    obtain ⟨l0, hl0, hlen0, hstep⟩ := stepRing_shape cfg i prev w h1 h2
    simp only [fireSpreadAux] at hr
    rcases List.mem_cons.mp hr with h | h
    · exact ⟨l0, hl0, hlen0, h ▸ hstep⟩
    · refine ih (i + 1) (some (stepRing cfg i prev w)) (fun h' => by cases h') ?_ ring h
      intro r hr'
      have heq : stepRing cfg i prev w = r := Option.some.inj hr'
      exact ⟨l0, hl0, hlen0, heq ▸ hstep⟩

/-! ### Claims C2, C3, C6: ring invariants and the pass-through frame -/

/-- Claim C2: every ring emitted by the propagator — at every step index,
with or without an initial polygon — is closed: its first point equals its
last point. -/
theorem C2_ring_closure (cfg : Config) (hrrr : Option (List WeatherStep)) (ring : Ring)
    (hmem : ring ∈ calculate_fire_spread cfg hrrr) :
    ring.head? = ring.getLast? := by
  cases hrrr with
  | none => simp [calculate_fire_spread] at hmem
  | some ws =>
    obtain ⟨l, hl, -, he⟩ :=
      fireSpreadAux_shape cfg ws 0 none (fun _ => rfl) (fun r hr => by cases hr) ring hmem
    rw [he]
    exact closeRing_head_eq_last l hl

/-- Claim C2, witness: the single output ring of a one-step run started from
the two-point polygon `[(0,0),(1,0)]` (the step-0 pass-through frame). -/
theorem C2_ring_closure_witness :
    ([((0:ℝ), (0:ℝ)), ((1:ℝ), (0:ℝ)), ((0:ℝ), (0:ℝ))] : Ring).head?
      = ([((0:ℝ), (0:ℝ)), ((1:ℝ), (0:ℝ)), ((0:ℝ), (0:ℝ))] : Ring).getLast? :=
  C2_ring_closure ⟨((0:ℝ), (0:ℝ)), some [((0:ℝ), (0:ℝ)), ((1:ℝ), (0:ℝ))]⟩
    (some [⟨10, 90, 20, 30⟩]) _
    (by rw [show calculate_fire_spread
          ⟨((0:ℝ), (0:ℝ)), some [((0:ℝ), (0:ℝ)), ((1:ℝ), (0:ℝ))]⟩
          (some [⟨10, 90, 20, 30⟩])
        = [[((0:ℝ), (0:ℝ)), ((1:ℝ), (0:ℝ)), ((0:ℝ), (0:ℝ))]] from rfl]
        exact List.mem_singleton.mpr rfl)

/-- Claim C3: for every step index `i > 0` within the output, the number of
distinct vertices of `ring_i` (its vertex list without the closing
duplicate) equals that of `ring_{i-1}`: advancing preserves the vertex
count.  (Both counts equal the initial vertex count; coincident points are
counted positionally, as the spec counts them.) -/
theorem C3_vertex_count_preserved (cfg : Config) (hrrr : Option (List WeatherStep))
    (i : Nat) (hi : 0 < i) (hlen : i < (calculate_fire_spread cfg hrrr).length) :
    ((calculate_fire_spread cfg hrrr).getD i []).dropLast.length
      = ((calculate_fire_spread cfg hrrr).getD (i - 1) []).dropLast.length := by
  cases hrrr with
  | none => simp [calculate_fire_spread] at hlen
  | some ws =>
    have hlen2 : i - 1 < (calculate_fire_spread cfg (some ws)).length :=
      lt_of_le_of_lt (Nat.sub_le i 1) hlen
    have hmem1 : (calculate_fire_spread cfg (some ws)).getD i []
        ∈ calculate_fire_spread cfg (some ws) := by
      rw [List.getD_eq_getElem _ _ hlen]; exact List.getElem_mem hlen
    have hmem2 : (calculate_fire_spread cfg (some ws)).getD (i - 1) []
        ∈ calculate_fire_spread cfg (some ws) := by
      rw [List.getD_eq_getElem _ _ hlen2]; exact List.getElem_mem hlen2
    obtain ⟨l1, -, hlen1, he1⟩ :=
      fireSpreadAux_shape cfg ws 0 none (fun _ => rfl) (fun r hr => by cases hr) _ hmem1
    obtain ⟨l2, -, hlen2', he2⟩ :=
      fireSpreadAux_shape cfg ws 0 none (fun _ => rfl) (fun r hr => by cases hr) _ hmem2
    rw [he1, he2, closeRing_dropLast, closeRing_dropLast, hlen1, hlen2']

/-- Claim C3, witness: a two-step run from the two-point polygon
`[(0,0),(1,0)]`, comparing the rings at indices 1 and 0. -/
theorem C3_vertex_count_preserved_witness :
    0 < 1 ∧
    1 < (calculate_fire_spread ⟨((0:ℝ), (0:ℝ)), some [((0:ℝ), (0:ℝ)), ((1:ℝ), (0:ℝ))]⟩
          (some [⟨10, 90, 20, 30⟩, ⟨10, 90, 20, 30⟩])).length ∧
    ((calculate_fire_spread ⟨((0:ℝ), (0:ℝ)), some [((0:ℝ), (0:ℝ)), ((1:ℝ), (0:ℝ))]⟩
          (some [⟨10, 90, 20, 30⟩, ⟨10, 90, 20, 30⟩])).getD 1 []).dropLast.length
      = ((calculate_fire_spread ⟨((0:ℝ), (0:ℝ)), some [((0:ℝ), (0:ℝ)), ((1:ℝ), (0:ℝ))]⟩
          (some [⟨10, 90, 20, 30⟩, ⟨10, 90, 20, 30⟩])).getD (1 - 1) []).dropLast.length :=
  ⟨Nat.one_pos,
    by rw [calculate_fire_spread_length]; norm_num,
    C3_vertex_count_preserved _ _ 1 Nat.one_pos
      (by rw [calculate_fire_spread_length]; norm_num)⟩

/-- Claim C6: when the caller supplies a nonempty initial polygon, the ring
emitted at step 0 is exactly that polygon with its first vertex appended at
the end — a verbatim pass-through, no vertex advanced. -/
theorem C6_initial_polygon_passthrough (cfg : Config) (poly : List Point)
    (w : WeatherStep) (ws : List WeatherStep)
    (hp : cfg.initial_polygon = some poly) (hne : poly ≠ []) :
    (calculate_fire_spread cfg (some (w :: ws))).headD [] = poly ++ poly.take 1 := by
  have htruthy : polyTruthy cfg.initial_polygon = true := by
    rw [hp]
    cases poly with
    | nil => cases hne rfl
    | cons a t => rfl
  show (fireSpreadAux cfg 0 none (w :: ws)).headD [] = _
  simp only [fireSpreadAux, List.headD_cons]
  unfold stepRing
  rw [if_pos ⟨rfl, htruthy⟩]
  unfold initialCoords
  rw [htruthy]
  rw [if_pos rfl, hp, Option.getD_some]
  exact closeRing_eq_append poly hne

/-- Claim C6, witness: the pass-through applied to the one-point polygon
`[(1,2)]`. -/
theorem C6_initial_polygon_passthrough_witness :
    (calculate_fire_spread ⟨((0:ℝ), (0:ℝ)), some [((1:ℝ), (2:ℝ))]⟩
        (some [⟨10, 90, 20, 30⟩])).headD []
      = [((1:ℝ), (2:ℝ))] ++ ([((1:ℝ), (2:ℝ))] : List Point).take 1 :=
  C6_initial_polygon_passthrough _ [((1:ℝ), (2:ℝ))] ⟨10, 90, 20, 30⟩ [] rfl (by simp)

/-! ### Claim C4: monotonicity of the pre-clamp spread distance -/

/-- Claim C4, counterexample: at humidity 100 % (inside the claimed
`[0,100]`) the humidity factor is negative, so raising the wind speed from
0 to 1 strictly decreases the pre-clamp distance (`-0.0008` to
`-0.001152`), both values below the 0.1 clamp. -/
theorem C4_counterexample :
    0 ≤ (0:ℝ) ∧ (0:ℝ) < 1 ∧ 0 ≤ (100:ℝ) ∧ (100:ℝ) ≤ 100 ∧
    pre_clamp_distance 0 100 < 0.1 ∧ pre_clamp_distance 1 100 < 0.1 ∧
    ¬ (pre_clamp_distance 0 100 < pre_clamp_distance 1 100) := by
  unfold pre_clamp_distance base_spread
  norm_num

/-- Claim C4, amended: holding humidity fixed in `[0, 80)` (so that the
humidity factor is positive), the pre-clamp spread distance
`base_spread * (1 + speed*0.2)` is strictly increasing in wind speed, for
every pair of speeds whose pre-clamp distances are below the 0.1 clamp. -/
theorem C4_pre_clamp_strict_mono (h s1 s2 : ℝ)
    (hh0 : 0 ≤ h) (hh : h < 80) (hs1 : 0 ≤ s1) (hlt : s1 < s2)
    (hc1 : pre_clamp_distance s1 h < 0.1) (hc2 : pre_clamp_distance s2 h < 0.1) :
    pre_clamp_distance s1 h < pre_clamp_distance s2 h := by
  unfold pre_clamp_distance base_spread
  have hc : (0:ℝ) < 1 + (30 - h) / 50 := by linarith
  nlinarith [mul_pos (mul_pos hc (sub_pos.mpr hlt))
    (show (0:ℝ) < 2 + 0.2 * (s1 + s2) by linarith)]

/-- Claim C4, witness: the amended monotonicity at humidity 30 %, speeds 0
and 1 (pre-clamp distances 0.002 and 0.00288, both below the clamp). -/
theorem C4_pre_clamp_strict_mono_witness :
    0 ≤ (30:ℝ) ∧ (30:ℝ) < 80 ∧ 0 ≤ (0:ℝ) ∧ (0:ℝ) < 1 ∧
    pre_clamp_distance 0 30 < 0.1 ∧ pre_clamp_distance 1 30 < 0.1 ∧
    pre_clamp_distance 0 30 < pre_clamp_distance 1 30 :=
  ⟨by norm_num, by norm_num, le_refl 0, by norm_num,
    by unfold pre_clamp_distance base_spread; norm_num,
    by unfold pre_clamp_distance base_spread; norm_num,
    C4_pre_clamp_strict_mono 30 0 1 (by norm_num) (by norm_num) (le_refl 0) (by norm_num)
      (by unfold pre_clamp_distance base_spread; norm_num)
      (by unfold pre_clamp_distance base_spread; norm_num)⟩

/-! ### Claims C8, C9, C10: error handling and the empty polygon -/

/-- Claim C8: if weather acquisition fails, the whole run aborts with that
single error and no partial output; if it returns a result, the record list
is complete — exactly one record per weather step, never truncated. -/
theorem C8_fetch_failure_aborts (cfg : Config) (fetch : Except String (List WeatherStep)) :
    (∀ e, fetch = .error e → run_simulation cfg fetch = .error e) ∧
    (∀ l, run_simulation cfg fetch = .ok l →
      ∃ hrrr, fetch = .ok hrrr ∧ l.length = hrrr.length) := by
  constructor
  · intro e he
    rw [he]
    rfl
  · intro l hl
    cases fetch with
    | error e => exact absurd hl (by simp [run_simulation])
    | ok hrrr =>
      refine ⟨hrrr, rfl, ?_⟩
      simp only [run_simulation, Except.ok.injEq] at hl
      rw [← hl, List.length_map, List.length_range]

/-- Claim C8, witness: a failing fetch aborts the run with the same single
error. -/
theorem C8_fetch_failure_aborts_witness :
    run_simulation ⟨((0:ℝ), (0:ℝ)), none⟩ (.error fetchError) = .error fetchError :=
  (C8_fetch_failure_aborts ⟨((0:ℝ), (0:ℝ)), none⟩ (.error fetchError)).1 fetchError rfl

/-- Claim C9: before any weather data has been acquired (`hrrr_data` is
`None`), `calculate_fire_spread` returns the empty list — no frame, no
failure. -/
theorem C9_no_weather_returns_empty (cfg : Config) :
    calculate_fire_spread cfg none = [] := rfl

/-- On a config whose initial polygon is the empty list, each step behaves
exactly as with no polygon at all: Python truthiness makes both falsy. -/
lemma stepRing_empty_poly (s : Point) (i : Nat) (prev : Option Ring) (w : WeatherStep) :
    stepRing ⟨s, some []⟩ i prev w = stepRing ⟨s, none⟩ i prev w := by
  simp [stepRing, polyTruthy, initialCoords]

lemma fireSpreadAux_empty_poly (s : Point) :
    ∀ (ws : List WeatherStep) (i : Nat) (prev : Option Ring),
      fireSpreadAux ⟨s, some []⟩ i prev ws = fireSpreadAux ⟨s, none⟩ i prev ws := by
  intro ws
  induction ws with
  | nil => intro i prev; rfl
  | cons w ws ih =>
    intro i prev
    simp only [fireSpreadAux]
    rw [stepRing_empty_poly, ih]

/-- Claim C10: an empty initial polygon behaves exactly like a missing one —
the pass-through branch is not taken and every frame, step 0 included, is
obtained by advancing the single-point pseudo-ring at the start location. -/
theorem C10_empty_polygon_behaves_as_none (s : Point) (hrrr : Option (List WeatherStep))
    (w : WeatherStep) (ws : List WeatherStep) :
    calculate_fire_spread ⟨s, some []⟩ hrrr = calculate_fire_spread ⟨s, none⟩ hrrr ∧
    (calculate_fire_spread ⟨s, some []⟩ (some (w :: ws))).headD []
      = closeRing (advanceRing w [(s.1, s.2)]) := by
  constructor
  · cases hrrr with
    | none => rfl
    | some l => exact fireSpreadAux_empty_poly s l 0 none
  · show (fireSpreadAux ⟨s, some []⟩ 0 none (w :: ws)).headD [] = _
    simp only [fireSpreadAux, List.headD_cons]
    unfold stepRing
    rw [if_neg (by simp [polyTruthy])]
    simp [initialCoords, polyTruthy]

/-! ### Claim C5: the unit-square scenario -/

lemma one_lt_sqrt_two : 1 < Real.sqrt 2 :=
  (Real.lt_sqrt (by norm_num)).mpr (by norm_num)

lemma sqrt_two_lt : Real.sqrt 2 < 1.5 :=
  (Real.sqrt_lt' (by norm_num)).mpr (by norm_num)

lemma abs_snd_le_norm2 (v : ℝ × ℝ) : |v.2| ≤ norm2 v := by
  unfold norm2
  rw [← Real.sqrt_sq_eq_abs]
  exact Real.sqrt_le_sqrt (by nlinarith [sq_nonneg v.1])

lemma radians_90 : radians 90 = Real.pi / 2 := by
  unfold radians
  ring

lemma spread_distance_10_30 : spread_distance 10 30 = 0.018 := by
  unfold spread_distance pre_clamp_distance base_spread
  norm_num [min_def]

lemma norm2_unit_axis (x y : ℝ) (h : x ^ 2 + y ^ 2 = 1) : norm2 (x, y) = 1 := by
  have h' : ((x, y) : ℝ × ℝ).1 ^ 2 + ((x, y) : ℝ × ℝ).2 ^ 2 = 1 := h
  unfold norm2
  rw [h', Real.sqrt_one]

lemma safe_normalize_unit (x y : ℝ) (h : x ^ 2 + y ^ 2 = 1) :
    safe_normalize (x, y) = (x, y) := by
  unfold safe_normalize
  rw [norm2_unit_axis x y h, if_pos (by norm_num : (1:ℝ) > 1e-10),
    normalized_of_norm_one _ (norm2_unit_axis x y h)]

lemma norm2_diag (e1 e2 : ℝ) (h1 : e1 ^ 2 = 1) (h2 : e2 ^ 2 = 1) :
    norm2 (e1, e2) = Real.sqrt 2 := by
  have h' : ((e1, e2) : ℝ × ℝ).1 ^ 2 + ((e1, e2) : ℝ × ℝ).2 ^ 2 = 2 := by
    show e1 ^ 2 + e2 ^ 2 = 2
    rw [h1, h2]
    norm_num
  unfold norm2
  rw [h']

/-- When the raw normal estimate is a `(±1, ±1)` diagonal, the normal
direction is that diagonal scaled to unit length. -/
lemma normal_dir_diag (v1n v2n wind : ℝ × ℝ) (e1 e2 : ℝ)
    (hraw : raw_normal v1n v2n = (e1, e2)) (h1 : e1 ^ 2 = 1) (h2 : e2 ^ 2 = 1) :
    normal_dir v1n v2n wind = (e1 / Real.sqrt 2, e2 / Real.sqrt 2) := by
  have hgt : norm2 (e1, e2) > 1e-10 := by
    rw [norm2_diag e1 e2 h1 h2]
    linarith [one_lt_sqrt_two]
  unfold normal_dir
  rw [hraw, if_pos hgt]
  unfold normalized
  rw [norm2_diag e1 e2 h1 h2]

/-- Signs of the blended spread direction for a diagonal normal
`(±1/√2, ±1/√2)` under the eastern-bearing wind vector `(0, 1)` the code
computes from direction 90°: the second component is always positive and
the first keeps the sign of the normal's first component. -/
lemma spread_dir_demo (e1 e2 : ℝ) (h1 : e1 = 1 ∨ e1 = -1) (h2 : e2 = 1 ∨ e2 = -1) :
    0 < (spread_dir (e1 / Real.sqrt 2, e2 / Real.sqrt 2) (0, 1)).2 ∧
    (0 < e1 → 0 < (spread_dir (e1 / Real.sqrt 2, e2 / Real.sqrt 2) (0, 1)).1) ∧
    (e1 < 0 → (spread_dir (e1 / Real.sqrt 2, e2 / Real.sqrt 2) (0, 1)).1 < 0) := by
  have hs1 : 1 < Real.sqrt 2 := one_lt_sqrt_two
  have hs0 : 0 < Real.sqrt 2 := by linarith
  have hinv : 1 / Real.sqrt 2 < 1 := by
    rw [div_lt_one hs0]
    exact hs1
  have hinvpos : 0 < 1 / Real.sqrt 2 := by positivity
  have h43 : (4:ℝ) / 3 < Real.sqrt 2 := (Real.lt_sqrt (by norm_num)).mpr (by norm_num)
  have hinv34 : 1 / Real.sqrt 2 < 3 / 4 := by
    rw [div_lt_iff hs0]
    nlinarith
  have hb2big : 1e-10 < e2 / Real.sqrt 2 * 0.5 + 1 * 0.5 := by
    rcases h2 with rfl | rfl
    · nlinarith
    · rw [neg_div]
      nlinarith
  have hb2pos : 0 < e2 / Real.sqrt 2 * 0.5 + 1 * 0.5 := lt_trans (by norm_num) hb2big
  have hproj : (blend (e1 / Real.sqrt 2, e2 / Real.sqrt 2) ((0:ℝ), (1:ℝ))).2
      = e2 / Real.sqrt 2 * 0.5 + 1 * 0.5 := rfl
  have habs := abs_snd_le_norm2 (blend (e1 / Real.sqrt 2, e2 / Real.sqrt 2) (0, 1))
  rw [hproj] at habs
  have hL : norm2 (blend (e1 / Real.sqrt 2, e2 / Real.sqrt 2) ((0:ℝ), (1:ℝ))) > 1e-10 :=
    lt_of_lt_of_le (lt_of_lt_of_le hb2big (le_abs_self _)) habs
  have hLpos : 0 < norm2 (blend (e1 / Real.sqrt 2, e2 / Real.sqrt 2) ((0:ℝ), (1:ℝ))) :=
    lt_trans (by norm_num) hL
  have hdir : spread_dir (e1 / Real.sqrt 2, e2 / Real.sqrt 2) (0, 1)
      = normalized (blend (e1 / Real.sqrt 2, e2 / Real.sqrt 2) (0, 1)) := by
    unfold spread_dir
    rw [if_pos hL]
  have hc1 : (normalized (blend (e1 / Real.sqrt 2, e2 / Real.sqrt 2) ((0:ℝ), (1:ℝ)))).1
      = (e1 / Real.sqrt 2 * 0.5 + 0 * 0.5)
        / norm2 (blend (e1 / Real.sqrt 2, e2 / Real.sqrt 2) ((0:ℝ), (1:ℝ))) := rfl
  have hc2 : (normalized (blend (e1 / Real.sqrt 2, e2 / Real.sqrt 2) ((0:ℝ), (1:ℝ)))).2
      = (e2 / Real.sqrt 2 * 0.5 + 1 * 0.5)
        / norm2 (blend (e1 / Real.sqrt 2, e2 / Real.sqrt 2) ((0:ℝ), (1:ℝ))) := rfl
  refine ⟨?_, ?_, ?_⟩
  · rw [hdir, hc2]
    exact div_pos hb2pos hLpos
  · intro he
    rw [hdir, hc1]
    refine div_pos ?_ hLpos
    have hq : 0 < e1 / Real.sqrt 2 := div_pos he hs0
    nlinarith
  · intro he
    rw [hdir, hc1]
    refine div_neg_of_neg_of_pos ?_ hLpos
    have hq : e1 / Real.sqrt 2 < 0 := div_neg_of_neg_of_pos he hs0
    nlinarith

/-- One vertex of the unit-square scenario: whenever the raw normal
estimate is a `(±1, ±1)` diagonal, the advanced vertex moves strictly north
(its second coordinate grows), and east or west according to the sign of
the normal's first component. -/
lemma advanceVertex_square (pp p np : Point) (e1 e2 : ℝ)
    (h1 : e1 = 1 ∨ e1 = -1) (h2 : e2 = 1 ∨ e2 = -1)
    (hraw : raw_normal (safe_normalize (np.1 - p.1, np.2 - p.2))
        (safe_normalize (p.1 - pp.1, p.2 - pp.2)) = (e1, e2)) :
    p.2 < (advanceVertex (radians 90) 10 30 pp p np).2 ∧
    (0 < e1 → p.1 < (advanceVertex (radians 90) 10 30 pp p np).1) ∧
    (e1 < 0 → (advanceVertex (radians 90) 10 30 pp p np).1 < p.1) := by
  have he1sq : e1 ^ 2 = 1 := by rcases h1 with rfl | rfl <;> norm_num
  have he2sq : e2 ^ 2 = 1 := by rcases h2 with rfl | rfl <;> norm_num
  have hwind : ((Real.cos (radians 90), Real.sin (radians 90)) : ℝ × ℝ) = ((0:ℝ), (1:ℝ)) := by
    rw [radians_90, Real.cos_pi_div_two, Real.sin_pi_div_two]
  have hsd := spread_dir_demo e1 e2 h1 h2
  simp only [advanceVertex]
  rw [hwind, normal_dir_diag _ _ _ e1 e2 hraw he1sq he2sq, spread_distance_10_30]
  refine ⟨?_, ?_, ?_⟩
  · have hy := hsd.1
    nlinarith
  · intro he
    have hx := hsd.2.1 he
    nlinarith
  · intro he
    have hx := hsd.2.2 he
    nlinarith

lemma demo_step0 : stepRing demoCfg 0 none demoWeather = closeRing demoPoly := rfl

lemma demo_step1 (r : Ring) :
    stepRing demoCfg 1 (some r) demoWeather
      = closeRing (advanceRing demoWeather r.dropLast) := rfl

lemma demoRun_eq :
    demoRun = [closeRing demoPoly, closeRing (advanceRing demoWeather demoPoly)] := by
  show fireSpreadAux demoCfg 0 none [demoWeather, demoWeather] = _
  simp only [fireSpreadAux]
  rw [demo_step0, demo_step1, closeRing_dropLast]

lemma advanceRing_demo :
    advanceRing demoWeather demoPoly =
      [advanceVertex (radians 90) 10 30 ((1:ℝ), (0:ℝ)) ((0:ℝ), (0:ℝ)) ((0:ℝ), (1:ℝ)),
       advanceVertex (radians 90) 10 30 ((0:ℝ), (0:ℝ)) ((0:ℝ), (1:ℝ)) ((1:ℝ), (1:ℝ)),
       advanceVertex (radians 90) 10 30 ((0:ℝ), (1:ℝ)) ((1:ℝ), (1:ℝ)) ((1:ℝ), (0:ℝ)),
       advanceVertex (radians 90) 10 30 ((1:ℝ), (1:ℝ)) ((1:ℝ), (0:ℝ)) ((0:ℝ), (0:ℝ))] := rfl

lemma demo_raw0 :
    raw_normal (safe_normalize ((0:ℝ) - 0, (1:ℝ) - 0))
        (safe_normalize ((0:ℝ) - 1, (0:ℝ) - 0)) = ((-1:ℝ), (-1:ℝ)) := by
  rw [show ((0:ℝ) - 0, (1:ℝ) - 0) = (((0:ℝ)), ((1:ℝ))) by norm_num]
  rw [show ((0:ℝ) - 1, (0:ℝ) - 0) = (((-1:ℝ)), ((0:ℝ))) by norm_num]
  rw [safe_normalize_unit 0 1 (by norm_num), safe_normalize_unit (-1) 0 (by norm_num)]
  unfold raw_normal
  norm_num

lemma demo_raw1 :
    raw_normal (safe_normalize ((1:ℝ) - 0, (1:ℝ) - 1))
        (safe_normalize ((0:ℝ) - 0, (1:ℝ) - 0)) = ((-1:ℝ), (1:ℝ)) := by
  rw [show ((1:ℝ) - 0, (1:ℝ) - 1) = (((1:ℝ)), ((0:ℝ))) by norm_num]
  rw [show ((0:ℝ) - 0, (1:ℝ) - 0) = (((0:ℝ)), ((1:ℝ))) by norm_num]
  rw [safe_normalize_unit 1 0 (by norm_num), safe_normalize_unit 0 1 (by norm_num)]
  unfold raw_normal
  norm_num

lemma demo_raw2 :
    raw_normal (safe_normalize ((1:ℝ) - 1, (0:ℝ) - 1))
        (safe_normalize ((1:ℝ) - 0, (1:ℝ) - 1)) = ((1:ℝ), (1:ℝ)) := by
  rw [show ((1:ℝ) - 1, (0:ℝ) - 1) = (((0:ℝ)), ((-1:ℝ))) by norm_num]
  rw [show ((1:ℝ) - 0, (1:ℝ) - 1) = (((1:ℝ)), ((0:ℝ))) by norm_num]
  rw [safe_normalize_unit 0 (-1) (by norm_num), safe_normalize_unit 1 0 (by norm_num)]
  unfold raw_normal
  norm_num

lemma demo_raw3 :
    raw_normal (safe_normalize ((0:ℝ) - 1, (0:ℝ) - 0))
        (safe_normalize ((1:ℝ) - 1, (0:ℝ) - 1)) = ((1:ℝ), (-1:ℝ)) := by
  rw [show ((0:ℝ) - 1, (0:ℝ) - 0) = (((-1:ℝ)), ((0:ℝ))) by norm_num]
  rw [show ((1:ℝ) - 1, (0:ℝ) - 1) = (((0:ℝ)), ((-1:ℝ))) by norm_num]
  rw [safe_normalize_unit (-1) 0 (by norm_num), safe_normalize_unit 0 (-1) (by norm_num)]
  unfold raw_normal
  norm_num

/-- Claim C5, counterexample: in the spec's scenario (unit square, wind
10 m/s at bearing 90°, humidity 30 %), the code's wind vector is
`(cos 90°, sin 90°) = (0, 1)` — due north in `(lon, lat)` coordinates — and
the corner `(0,0)`'s outward normal points south-west, so after the first
advanced step that vertex's longitude strictly decreases: the claimed
strict eastward displacement fails at vertex 0. -/
theorem C5_counterexample :
    ¬ (((demoRun.getD 0 []).getD 0 ((0:ℝ), (0:ℝ))).1
        < ((demoRun.getD 1 []).getD 0 ((0:ℝ), (0:ℝ))).1) := by
  have h0 := advanceVertex_square ((1:ℝ), (0:ℝ)) ((0:ℝ), (0:ℝ)) ((0:ℝ), (1:ℝ)) (-1) (-1)
    (Or.inr rfl) (Or.inr rfl) demo_raw0
  have hlt := h0.2.2 (by norm_num)
  have hr0 : (demoRun.getD 0 []).getD 0 ((0:ℝ), (0:ℝ)) = ((0:ℝ), (0:ℝ)) := by
    rw [demoRun_eq]
    rfl
  have hr1 : (demoRun.getD 1 []).getD 0 ((0:ℝ), (0:ℝ))
      = advanceVertex (radians 90) 10 30 ((1:ℝ), (0:ℝ)) ((0:ℝ), (0:ℝ)) ((0:ℝ), (1:ℝ)) := by
    rw [demoRun_eq]
    rfl
  rw [hr0, hr1]
  exact not_lt.mpr (le_of_lt hlt)

/-- Claim C5, amended: in the scenario the ring after one advanced step is
closed, retains 4 distinct vertices, and every vertex's latitude (y) is
strictly greater than its predecessor's — the net displacement is
northward, along the wind vector `(0, 1)` the code derives from direction
90°, not eastward. -/
theorem C5_scenario_northward :
    (demoRun.getD 1 []).head? = (demoRun.getD 1 []).getLast? ∧
    (demoRun.getD 1 []).dropLast.length = 4 ∧
    List.Forall₂ (fun p q => p.2 < q.2)
      (demoRun.getD 0 []).dropLast (demoRun.getD 1 []).dropLast := by
  have h0 := advanceVertex_square ((1:ℝ), (0:ℝ)) ((0:ℝ), (0:ℝ)) ((0:ℝ), (1:ℝ)) (-1) (-1)
    (Or.inr rfl) (Or.inr rfl) demo_raw0
  have h1 := advanceVertex_square ((0:ℝ), (0:ℝ)) ((0:ℝ), (1:ℝ)) ((1:ℝ), (1:ℝ)) (-1) 1
    (Or.inr rfl) (Or.inl rfl) demo_raw1
  have h2 := advanceVertex_square ((0:ℝ), (1:ℝ)) ((1:ℝ), (1:ℝ)) ((1:ℝ), (0:ℝ)) 1 1
    (Or.inl rfl) (Or.inl rfl) demo_raw2
  have h3 := advanceVertex_square ((1:ℝ), (1:ℝ)) ((1:ℝ), (0:ℝ)) ((0:ℝ), (0:ℝ)) 1 (-1)
    (Or.inl rfl) (Or.inr rfl) demo_raw3
  have hdemo_ne : demoPoly ≠ [] := by
    unfold demoPoly
    exact List.cons_ne_nil _ _
  have hr0 : demoRun.getD 0 [] = closeRing demoPoly := by
    rw [demoRun_eq]
    rfl
  have hr1 : demoRun.getD 1 [] = closeRing (advanceRing demoWeather demoPoly) := by
    rw [demoRun_eq]
    rfl
  refine ⟨?_, ?_, ?_⟩
  · rw [hr1]
    exact closeRing_head_eq_last _ (advanceRing_ne_nil _ _ hdemo_ne)
  · rw [hr1, closeRing_dropLast, advanceRing_length]
    rfl
  · rw [hr0, hr1, closeRing_dropLast, closeRing_dropLast, advanceRing_demo]
    show List.Forall₂ _
      [((0:ℝ), (0:ℝ)), ((0:ℝ), (1:ℝ)), ((1:ℝ), (1:ℝ)), ((1:ℝ), (0:ℝ))] _
    exact List.Forall₂.cons h0.1 (List.Forall₂.cons h1.1
      (List.Forall₂.cons h2.1 (List.Forall₂.cons h3.1 List.Forall₂.nil)))

end PWWB
